import Mathlib

/-!
Verification of `app/syncables.go` from mattermost-server: the Addition
Reconciler (`CreateDefaultMemberships`), the Removal Reconciler
(`DeleteGroupConstrainedMemberships`) and the Role Synchronizer
(`SyncSyncableRoles`), shallowly embedded over an abstract environment of
persistence-layer collaborators.  Each embedded operation returns the Go
function's error result, the final collaborator state, and the ordered
trace of collaborator calls and log lines it issued.
-/

namespace Syncables

/-- Go `model.AppError`: we keep the fields the core reads or constructs
(`Where`, `Id`, `StatusCode`). -/
structure AppError where
  location : String
  id : String
  statusCode : Nat
deriving DecidableEq, Repr

/-- The error id `GetTeamMember` reports when no membership exists
(tolerated at syncables.go:48). -/
def missingTeamMemberId : String := "store.sql_team.get_member.missing.app_error"

/-- The error id of the tolerated `AddChannelMember` conflict
(syncables.go:66). -/
def channelAddDeletedId : String := "api.channel.add_user.to.channel.failed.deleted.app_error"

/-- The `model.NewAppError` built for an unsupported syncable type
(syncables.go:152); `http.StatusInternalServerError = 500`. -/
def unsupportedSyncableTypeError : AppError :=
  { location := "App.SyncSyncableRoles"
    id := "groups.unsupported_syncable_type"
    statusCode := 500 }

/-- Go `model.GroupSyncableTypeTeam` (the string "Team"). -/
def groupSyncableTypeTeam : String := "Team"

/-- Go `model.GroupSyncableTypeChannel` (the string "Channel"). -/
def groupSyncableTypeChannel : String := "Channel"

/-- Result row of `TeamMembersToAdd`: Go `model.UserTeamIDPair`. -/
structure UserTeamIDPair where
  teamID : String
  userID : String
deriving DecidableEq, Repr

/-- Result row of `ChannelMembersToAdd`: Go `model.UserChannelIDPair`. -/
structure UserChannelIDPair where
  channelID : String
  userID : String
deriving DecidableEq, Repr

/-- The fields of Go `model.Channel` this core reads. -/
structure Channel where
  id : String
  teamId : String
deriving DecidableEq, Repr

/-- The fields of Go `model.TeamMember` this core reads. -/
structure TeamMember where
  teamId : String
  userId : String
deriving DecidableEq, Repr

/-- The fields of Go `model.ChannelMember` this core reads. -/
structure ChannelMember where
  channelId : String
  userId : String
deriving DecidableEq, Repr

/-- Go `store.Equality` (`store.Equals` / `store.NotEquals`). -/
inductive Equality where
  | equals
  | notEquals
deriving DecidableEq, Repr

/-- Which store the role update is dispatched to (syncables.go:147-150). -/
inductive RoleStore where
  | team
  | channel
deriving DecidableEq, Repr

/-- One observable step of an operation: a collaborator call or a log line.
Log fields are rendered as (key, value) string pairs. -/
inductive Event where
  | callTeamMembersToAdd (since : Int)
  | callChannelMembersToAdd (since : Int)
  | callChannelMembersToRemove
  | callTeamMembersToRemove
  | callGetChannel (channelId : String)
  | callGetTeamMember (teamId userId : String)
  | callAddTeamMember (teamId userId : String)
  | callAddChannelMember (userId channelId : String)
  | callRemoveUserFromChannel (userId channelId : String)
  | callRemoveUserFromTeam (teamId userId : String)
  | callPermittedSyncableAdmins (syncableId syncableType : String)
  | callUpdateMembersRole (target : RoleStore) (syncableId : String)
      (userIds : List String) (eq : Equality) (value : Bool)
  | logInfo (msg : String) (fields : List (String × String))
deriving DecidableEq, Repr

/-- The persistence boundary the core calls through, over an abstract
collaborator state `σ`.  Each operation consumes and returns the state, so
collaborator side effects are explicit. -/
structure Env (σ : Type) where
  teamMembersToAdd : Int → σ → Except AppError (List UserTeamIDPair) × σ
  channelMembersToAdd : Int → σ → Except AppError (List UserChannelIDPair) × σ
  channelMembersToRemove : σ → Except AppError (List ChannelMember) × σ
  teamMembersToRemove : σ → Except AppError (List TeamMember) × σ
  getChannel : String → σ → Except AppError Channel × σ
  getTeamMember : String → String → σ → Except AppError TeamMember × σ
  addTeamMember : String → String → σ → Except AppError TeamMember × σ
  addChannelMember : String → Channel → String → String → σ →
    Except AppError ChannelMember × σ
  removeUserFromChannel : String → String → Channel → σ → Option AppError × σ
  removeUserFromTeam : String → String → String → σ → Option AppError × σ
  permittedSyncableAdmins : String → String → σ → Except AppError (List String) × σ
  updateTeamMembersRole : String → List String → Equality → Bool → σ →
    Option AppError × σ
  updateChannelMembersRole : String → List String → Equality → Bool → σ →
    Option AppError × σ

/-- Result of an embedded operation: the Go error return (`none` = nil),
the final collaborator state, and the trace of events in issue order. -/
abbrev Outcome (σ : Type) := Option AppError × σ × List Event

variable {σ : Type}

/-- syncables.go:24-34 — the team-addition loop of `CreateDefaultMemberships`:
add each pair, abort on first failure, log each success. -/
def processTeamAdds (env : Env σ) : List UserTeamIDPair → σ → Outcome σ
  | [], s => (none, s, [])
  | p :: rest, s =>
    match env.addTeamMember p.teamID p.userID s with
    | (Except.error e, s1) => (some e, s1, [Event.callAddTeamMember p.teamID p.userID])
    | (Except.ok _, s1) =>
      let r := processTeamAdds env rest s1
      (r.1, r.2.1,
        Event.callAddTeamMember p.teamID p.userID ::
        Event.logInfo "added teammember"
          [("user_id", p.userID), ("team_id", p.teamID)] :: r.2.2)

/-- syncables.go:64-79 — the tail of one channel-loop iteration: the
`AddChannelMember` call, the tolerated-conflict branch, and the
unconditional "added channelmember" log that follows. `tr` is the trace
accumulated earlier in the iteration. -/
def addChannelStep (env : Env σ) (p : UserChannelIDPair) (channel : Channel)
    (s : σ) (tr : List Event) : Outcome σ :=
  match env.addChannelMember p.userID channel "" "" s with
  | (Except.error e, s1) =>
    if e.id = channelAddDeletedId then
      (none, s1, tr ++
        [Event.callAddChannelMember p.userID channel.id,
         Event.logInfo "Not adding user to channel because they have already left the team"
           [("user_id", p.userID), ("channel_id", p.channelID)],
         Event.logInfo "added channelmember"
           [("user_id", p.userID), ("channel_id", p.channelID)]])
    else
      (some e, s1, tr ++ [Event.callAddChannelMember p.userID channel.id])
  | (Except.ok _, s1) =>
    (none, s1, tr ++
      [Event.callAddChannelMember p.userID channel.id,
       Event.logInfo "added channelmember"
         [("user_id", p.userID), ("channel_id", p.channelID)]])

/-- syncables.go:41-80 — one iteration of the channel-addition loop:
resolve the channel, look up team membership (a missing-membership error is
tolerated), add the team membership first when absent, then the channel
membership. -/
def processChannelAdd (env : Env σ) (p : UserChannelIDPair) (s : σ) : Outcome σ :=
  match env.getChannel p.channelID s with
  | (Except.error e, s1) => (some e, s1, [Event.callGetChannel p.channelID])
  | (Except.ok channel, s1) =>
    let tr0 := [Event.callGetChannel p.channelID,
                Event.callGetTeamMember channel.teamId p.userID]
    match env.getTeamMember channel.teamId p.userID s1 with
    | (Except.error e, s2) =>
      if e.id = missingTeamMemberId then
        match env.addTeamMember channel.teamId p.userID s2 with
        | (Except.error e2, s3) =>
          (some e2, s3, tr0 ++ [Event.callAddTeamMember channel.teamId p.userID])
        | (Except.ok _, s3) =>
          addChannelStep env p channel s3 (tr0 ++
            [Event.callAddTeamMember channel.teamId p.userID,
             Event.logInfo "added teammember"
               [("user_id", p.userID), ("team_id", channel.teamId)]])
      else
        (some e, s2, tr0)
    | (Except.ok _, s2) => addChannelStep env p channel s2 tr0

/-- syncables.go:41-80 — the channel-addition loop over all pairs. -/
def processChannelAdds (env : Env σ) : List UserChannelIDPair → σ → Outcome σ
  | [], s => (none, s, [])
  | p :: rest, s =>
    match processChannelAdd env p s with
    | (some e, s1, tr) => (some e, s1, tr)
    | (none, s1, tr) =>
      let r := processChannelAdds env rest s1
      (r.1, r.2.1, tr ++ r.2.2)

/-- syncables.go:18-83 — `CreateDefaultMemberships` (the Addition
Reconciler). -/
def createDefaultMemberships (env : Env σ) (since : Int) (s : σ) : Outcome σ :=
  match env.teamMembersToAdd since s with
  | (Except.error e, s1) => (some e, s1, [Event.callTeamMembersToAdd since])
  | (Except.ok teamMembers, s1) =>
    match processTeamAdds env teamMembers s1 with
    | (some e, s2, tr) => (some e, s2, Event.callTeamMembersToAdd since :: tr)
    | (none, s2, tr) =>
      match env.channelMembersToAdd since s2 with
      | (Except.error e, s3) =>
        (some e, s3, Event.callTeamMembersToAdd since :: tr ++
          [Event.callChannelMembersToAdd since])
      | (Except.ok channelMembers, s3) =>
        let r := processChannelAdds env channelMembers s3
        (r.1, r.2.1, Event.callTeamMembersToAdd since :: tr ++
          Event.callChannelMembersToAdd since :: r.2.2)

/-- syncables.go:93-108 — the channel-removal loop of
`DeleteGroupConstrainedMemberships`. -/
def processChannelRemovals (env : Env σ) : List ChannelMember → σ → Outcome σ
  | [], s => (none, s, [])
  | m :: rest, s =>
    match env.getChannel m.channelId s with
    | (Except.error e, s1) => (some e, s1, [Event.callGetChannel m.channelId])
    | (Except.ok channel, s1) =>
      match env.removeUserFromChannel m.userId "" channel s1 with
      | (some e, s2) =>
        (some e, s2, [Event.callGetChannel m.channelId,
                      Event.callRemoveUserFromChannel m.userId channel.id])
      | (none, s2) =>
        let r := processChannelRemovals env rest s2
        (r.1, r.2.1,
          Event.callGetChannel m.channelId ::
          Event.callRemoveUserFromChannel m.userId channel.id ::
          Event.logInfo "removed channelmember"
            [("user_id", m.userId), ("channel_id", channel.id)] :: r.2.2)

/-- syncables.go:115-125 — the team-removal loop of
`DeleteGroupConstrainedMemberships`. -/
def processTeamRemovals (env : Env σ) : List TeamMember → σ → Outcome σ
  | [], s => (none, s, [])
  | m :: rest, s =>
    match env.removeUserFromTeam m.teamId m.userId "" s with
    | (some e, s1) =>
      (some e, s1, [Event.callRemoveUserFromTeam m.teamId m.userId])
    | (none, s1) =>
      let r := processTeamRemovals env rest s1
      (r.1, r.2.1,
        Event.callRemoveUserFromTeam m.teamId m.userId ::
        Event.logInfo "removed teammember"
          [("user_id", m.userId), ("team_id", m.teamId)] :: r.2.2)

/-- syncables.go:87-128 — `DeleteGroupConstrainedMemberships` (the Removal
Reconciler). -/
def deleteGroupConstrainedMemberships (env : Env σ) (s : σ) : Outcome σ :=
  match env.channelMembersToRemove s with
  | (Except.error e, s1) => (some e, s1, [Event.callChannelMembersToRemove])
  | (Except.ok channelMembers, s1) =>
    match processChannelRemovals env channelMembers s1 with
    | (some e, s2, tr) => (some e, s2, Event.callChannelMembersToRemove :: tr)
    | (none, s2, tr) =>
      match env.teamMembersToRemove s2 with
      | (Except.error e, s3) =>
        (some e, s3, Event.callChannelMembersToRemove :: tr ++
          [Event.callTeamMembersToRemove])
      | (Except.ok teamMembers, s3) =>
        let r := processTeamRemovals env teamMembers s3
        (r.1, r.2.1, Event.callChannelMembersToRemove :: tr ++
          Event.callTeamMembersToRemove :: r.2.2)

/-- syncables.go:144-153 — the `updateFunc` variable: the role-update
operation of the store selected by the syncable type. -/
def roleUpdateFunc (env : Env σ) : RoleStore →
    String → List String → Equality → Bool → σ → Option AppError × σ
  | RoleStore.team => env.updateTeamMembersRole
  | RoleStore.channel => env.updateChannelMembersRole

/-- syncables.go:155-163 — the two bulk role updates of
`SyncSyncableRoles`, against the store selected at syncables.go:146-153. -/
def applyRoleUpdates (env : Env σ) (target : RoleStore) (syncableID : String)
    (permittedAdmins : List String) (s : σ) (tr : List Event) : Outcome σ :=
  let f := roleUpdateFunc env target
  match f syncableID permittedAdmins Equality.equals true s with
  | (some e, s1) =>
    (some e, s1, tr ++
      [Event.callUpdateMembersRole target syncableID permittedAdmins Equality.equals true])
  | (none, s1) =>
    match f syncableID permittedAdmins Equality.notEquals false s1 with
    | (some e, s2) =>
      (some e, s2, tr ++
        [Event.callUpdateMembersRole target syncableID permittedAdmins Equality.equals true,
         Event.callUpdateMembersRole target syncableID permittedAdmins Equality.notEquals false])
    | (none, s2) =>
      (none, s2, tr ++
        [Event.callUpdateMembersRole target syncableID permittedAdmins Equality.equals true,
         Event.callUpdateMembersRole target syncableID permittedAdmins Equality.notEquals false])

/-- syncables.go:132-166 — `SyncSyncableRoles` (the Role Synchronizer):
query the permitted admins, log them, dispatch on the syncable type
(unsupported types are a configuration error), then apply the two bulk
role updates. -/
def syncSyncableRoles (env : Env σ) (syncableID : String) (syncableType : String)
    (s : σ) : Outcome σ :=
  match env.permittedSyncableAdmins syncableID syncableType s with
  | (Except.error e, s1) =>
    (some e, s1, [Event.callPermittedSyncableAdmins syncableID syncableType])
  | (Except.ok permittedAdmins, s1) =>
    let tr0 := [Event.callPermittedSyncableAdmins syncableID syncableType,
                Event.logInfo ("Permitted admins for " ++ syncableType)
                  [(String.toLower (syncableType ++ "_id"), syncableID),
                   ("permitted_admins", String.intercalate "," permittedAdmins)]]
    if syncableType = groupSyncableTypeTeam then
      applyRoleUpdates env RoleStore.team syncableID permittedAdmins s1 tr0
    else if syncableType = groupSyncableTypeChannel then
      applyRoleUpdates env RoleStore.channel syncableID permittedAdmins s1 tr0
    else
      (some unsupportedSyncableTypeError, s1, tr0)

/-!
A concrete instantiation of the persistence boundary, used to settle the
claims that constrain the resulting membership state.  The implementations
of the collaborators (`AddTeamMember`, `AddChannelMember`,
`RemoveUserFromChannel`, `RemoveUserFromTeam`, `UpdateMembersRole`, the
to-add/to-remove queries) are not part of `app/syncables.go`, so their
semantics are modelled from the spec (sections 5 and 6): adds are
idempotent, removals delete the membership, `UpdateMembersRole` assigns
the admin flag to the syncable's members selected by the equality mode.
-/

/-- Membership database: membership pairs and the pairs whose admin flag
is true.  Team pairs are (teamId, userId); channel pairs are
(channelId, userId). -/
structure DB where
  teamMembers : List (String × String)
  channelMembers : List (String × String)
  teamAdmins : List (String × String)
  channelAdmins : List (String × String)
deriving DecidableEq, Repr

/-- Insert a pair if absent (modelled from the spec: "reapplying an
already-satisfied add ... is a no-op"). -/
def insertPair (p : String × String) (l : List (String × String)) :
    List (String × String) :=
  if p ∈ l then l else p :: l

/-- Modelled from the spec: whether a user id satisfies the equality mode
against the given user-id list (role update steps 4a/4b). -/
def matchesEquality (eq : Equality) (userIds : List String) (u : String) : Bool :=
  match eq with
  | Equality.equals => decide (u ∈ userIds)
  | Equality.notEquals => !decide (u ∈ userIds)

/-- Modelled from the spec: `UpdateMembersRole(sid, userIds, eq, value)`
assigns admin := value to every membership of syncable `sid` whose user
satisfies the equality mode; memberships of other syncables are untouched.
`members` is the membership list, `admins` the current admin-flag set. -/
def dbUpdateMembersRole (members admins : List (String × String))
    (sid : String) (userIds : List String) (eq : Equality) (value : Bool) :
    List (String × String) :=
  if value then
    admins ++ members.filter
      (fun m => decide (m.1 = sid) && matchesEquality eq userIds m.2)
  else
    admins.filter (fun m => !(decide (m.1 = sid) && matchesEquality eq userIds m.2))

/-- The answers of the derived-set queries and channel resolution, plus
the set of (team, user) pairs for which `AddTeamMember` fails (used to
model partial failure).  Modelled from the spec: these collaborators are
external, specified only by their interface contract. -/
structure Oracle where
  tma : List UserTeamIDPair
  cma : List UserChannelIDPair
  cmr : List ChannelMember
  tmr : List TeamMember
  chanTeam : String → String
  padm : List String
  failTeam : List (String × String)

/-- A persistence failure used by the modelled `AddTeamMember` on pairs in
`failTeam`. -/
def persistenceError : AppError :=
  { location := "store", id := "store.some_persistence_failure.app_error", statusCode := 500 }

/-- Modelled from the spec: a concrete persistence boundary over `DB`.
Queries answer from the oracle; `GetChannel` resolves a channel to its
owning team; `GetTeamMember` reports the missing-membership error exactly
when the pair is absent; adds are idempotent inserts (failing with a
persistence error on `failTeam` pairs); removals delete the pair;
`UpdateMembersRole` is `dbUpdateMembersRole` per store. -/
def specEnv (o : Oracle) : Env DB where
  teamMembersToAdd := fun _ db => (Except.ok o.tma, db)
  channelMembersToAdd := fun _ db => (Except.ok o.cma, db)
  channelMembersToRemove := fun db => (Except.ok o.cmr, db)
  teamMembersToRemove := fun db => (Except.ok o.tmr, db)
  getChannel := fun cid db => (Except.ok { id := cid, teamId := o.chanTeam cid }, db)
  getTeamMember := fun tid uid db =>
    if (tid, uid) ∈ db.teamMembers then
      (Except.ok { teamId := tid, userId := uid }, db)
    else
      (Except.error { location := "SqlTeamStore.GetMember",
                      id := missingTeamMemberId, statusCode := 404 }, db)
  addTeamMember := fun tid uid db =>
    if (tid, uid) ∈ o.failTeam then
      (Except.error persistenceError, db)
    else
      (Except.ok { teamId := tid, userId := uid },
       { db with teamMembers := insertPair (tid, uid) db.teamMembers })
  addChannelMember := fun uid ch _ _ db =>
    (Except.ok { channelId := ch.id, userId := uid },
     { db with channelMembers := insertPair (ch.id, uid) db.channelMembers })
  removeUserFromChannel := fun uid _ ch db =>
    (none, { db with channelMembers :=
      db.channelMembers.filter (fun m => !decide (m = (ch.id, uid))) })
  removeUserFromTeam := fun tid uid _ db =>
    (none, { db with teamMembers :=
      db.teamMembers.filter (fun m => !decide (m = (tid, uid))) })
  permittedSyncableAdmins := fun _ _ db => (Except.ok o.padm, db)
  updateTeamMembersRole := fun sid userIds eq v db =>
    (none, { db with teamAdmins :=
      dbUpdateMembersRole db.teamMembers db.teamAdmins sid userIds eq v })
  updateChannelMembersRole := fun sid userIds eq v db =>
    (none, { db with channelAdmins :=
      dbUpdateMembersRole db.channelMembers db.channelAdmins sid userIds eq v })

/-- Whether an event is a team-membership removal command. -/
def isTeamRemovalEvent : Event → Bool
  | Event.callRemoveUserFromTeam _ _ => true
  | _ => false

/-- Whether an event is a channel-membership removal command. -/
def isChannelRemovalEvent : Event → Bool
  | Event.callRemoveUserFromChannel _ _ => true
  | _ => false

/-- Whether an event is a bulk role-update write. -/
def isRoleUpdateEvent : Event → Bool
  | Event.callUpdateMembersRole _ _ _ _ _ => true
  | _ => false

/-- A trivial collaborator over `Unit` state where every call succeeds
with an empty answer; concrete test environments below override single
fields of it. -/
def unitEnv : Env Unit where
  teamMembersToAdd := fun _ s => (Except.ok [], s)
  channelMembersToAdd := fun _ s => (Except.ok [], s)
  channelMembersToRemove := fun s => (Except.ok [], s)
  teamMembersToRemove := fun s => (Except.ok [], s)
  getChannel := fun cid s => (Except.ok { id := cid, teamId := "t1" }, s)
  getTeamMember := fun tid uid s => (Except.ok { teamId := tid, userId := uid }, s)
  addTeamMember := fun tid uid s => (Except.ok { teamId := tid, userId := uid }, s)
  addChannelMember := fun uid ch _ _ s =>
    (Except.ok { channelId := ch.id, userId := uid }, s)
  removeUserFromChannel := fun _ _ _ s => (none, s)
  removeUserFromTeam := fun _ _ _ s => (none, s)
  permittedSyncableAdmins := fun _ _ s => (Except.ok [], s)
  updateTeamMembersRole := fun _ _ _ _ s => (none, s)
  updateChannelMembersRole := fun _ _ _ _ s => (none, s)

/-- The tolerated `AddChannelMember` conflict as a concrete error value. -/
def deletedConflictError : AppError :=
  { location := "AddChannelMember", id := channelAddDeletedId, statusCode := 400 }

/-- Test environment: the permitted-admins query fails. -/
def envPermittedFails : Env Unit :=
  { unitEnv with permittedSyncableAdmins := fun _ _ s => (Except.error persistenceError, s) }

/-- Test environment: the first (equals-mode) role update fails. -/
def envFailFirstUpdate : Env Unit :=
  { unitEnv with updateTeamMembersRole := fun _ _ eq _ s =>
      (if eq = Equality.equals then some persistenceError else none, s) }

/-- Test environment: the second (not-equals-mode) role update fails. -/
def envFailSecondUpdate : Env Unit :=
  { unitEnv with updateTeamMembersRole := fun _ _ eq _ s =>
      (if eq = Equality.notEquals then some persistenceError else none, s) }

/-- Test environment: `AddChannelMember` fails with the tolerated
conflict. -/
def envChanConflict : Env Unit :=
  { unitEnv with addChannelMember := fun _ _ _ _ s =>
      (Except.error deletedConflictError, s) }

/-- Test environment: `AddChannelMember` fails with a non-tolerated
persistence error. -/
def envChanFatal : Env Unit :=
  { unitEnv with addChannelMember := fun _ _ _ _ s =>
      (Except.error persistenceError, s) }

/-- Test environment: `AddTeamMember` fails. -/
def envTeamAddFails : Env Unit :=
  { unitEnv with addTeamMember := fun _ _ s => (Except.error persistenceError, s) }

/-! ## Theorems -/

/-- C7: in every run of the Role Synchronizer, if the first bulk update
(admin := true, equals mode) fails, the second bulk update is not
attempted (the trace holds only the first update command), the first
update's effects are kept (the final state is exactly the state the
failing call produced), and its error is returned; if the first update
succeeds and the second fails, the second's error is returned. -/
theorem sync_roles_update_failure_handling :
    (∀ (σ : Type) (env : Env σ) (target : RoleStore) (sid : String)
       (P : List String) (s : σ) (tr : List Event) (e : AppError) (s1 : σ),
       roleUpdateFunc env target sid P Equality.equals true s = (some e, s1) →
       applyRoleUpdates env target sid P s tr =
         (some e, s1, tr ++
           [Event.callUpdateMembersRole target sid P Equality.equals true]))
  ∧ (∀ (σ : Type) (env : Env σ) (target : RoleStore) (sid : String)
       (P : List String) (s : σ) (tr : List Event) (s1 : σ) (e2 : AppError) (s2 : σ),
       roleUpdateFunc env target sid P Equality.equals true s = (none, s1) →
       roleUpdateFunc env target sid P Equality.notEquals false s1 = (some e2, s2) →
       applyRoleUpdates env target sid P s tr =
         (some e2, s2, tr ++
           [Event.callUpdateMembersRole target sid P Equality.equals true,
            Event.callUpdateMembersRole target sid P Equality.notEquals false])) := by
  constructor
  · intro σ env target sid P s tr e s1 h
    simp only [applyRoleUpdates, h]
  · intro σ env target sid P s tr s1 e2 s2 h1 h2
    simp only [applyRoleUpdates, h1, h2]

/-- Witness for C7 at concrete failing environments. -/
theorem sync_roles_update_failure_handling_witness :
    applyRoleUpdates envFailFirstUpdate RoleStore.team "s1" ["u1"] () [] =
      (some persistenceError, (),
        [Event.callUpdateMembersRole RoleStore.team "s1" ["u1"] Equality.equals true]) ∧
    applyRoleUpdates envFailSecondUpdate RoleStore.team "s1" ["u1"] () [] =
      (some persistenceError, (),
        [Event.callUpdateMembersRole RoleStore.team "s1" ["u1"] Equality.equals true,
         Event.callUpdateMembersRole RoleStore.team "s1" ["u1"] Equality.notEquals false]) :=
  ⟨sync_roles_update_failure_handling.1 Unit envFailFirstUpdate RoleStore.team
      "s1" ["u1"] () [] persistenceError () rfl,
   sync_roles_update_failure_handling.2 Unit envFailSecondUpdate RoleStore.team
      "s1" ["u1"] () [] () persistenceError () rfl rfl⟩

/-- C6 counterexample: the claim "every call with an unsupported syncable
type returns a Configuration error" is false as stated — when the
permitted-admins query fails, `SyncSyncableRoles` returns that persistence
error, not the Configuration error, even though the type is unsupported. -/
theorem sync_roles_unsupported_type_counterexample :
    (syncSyncableRoles envPermittedFails "s1" "Bogus" ()).1 = some persistenceError ∧
    persistenceError ≠ unsupportedSyncableTypeError := by
  exact ⟨rfl, by decide⟩

/-- C6 (amended): a Role Synchronizer call with a syncable type that is
neither Team nor Channel performs zero role-update writes, and — provided
the permitted-admins query succeeds — returns the Configuration error
without touching the state further. -/
theorem sync_roles_unsupported_type (σ : Type) (env : Env σ) (sid ty : String)
    (s : σ) (hteam : ty ≠ groupSyncableTypeTeam)
    (hchan : ty ≠ groupSyncableTypeChannel) :
    (∀ P s1, env.permittedSyncableAdmins sid ty s = (Except.ok P, s1) →
       (syncSyncableRoles env sid ty s).1 = some unsupportedSyncableTypeError ∧
       (syncSyncableRoles env sid ty s).2.1 = s1)
  ∧ (∀ e ∈ (syncSyncableRoles env sid ty s).2.2, isRoleUpdateEvent e = false) := by
  unfold syncSyncableRoles
  rcases hq : env.permittedSyncableAdmins sid ty s with ⟨res, s1⟩
  cases res with
  | error e =>
    refine ⟨fun P s2 h => by simp at h, ?_⟩
    intro ev hev
    simp only [List.mem_singleton] at hev
    subst hev
    rfl
  | ok P =>
    simp only [if_neg hteam, if_neg hchan]
    refine ⟨fun P2 s2 h => ?_, ?_⟩
    · injection h with h1 h2
      exact ⟨trivial, h2⟩
    · intro ev hev
      simp only [List.mem_cons, List.mem_singleton, List.not_mem_nil, or_false] at hev
      rcases hev with h | h <;> subst h <;> rfl

/-- Witness for C6 (amended) at a concrete environment. -/
theorem sync_roles_unsupported_type_witness :
    (syncSyncableRoles unitEnv "s1" "Bogus" ()).1 = some unsupportedSyncableTypeError :=
  ((sync_roles_unsupported_type Unit unitEnv "s1" "Bogus" ()
      (by decide) (by decide)).1 [] () rfl).1

/-- C10: even for an unsupported syncable type, the permitted-admins query
is executed and its result logged before the type is validated — when the
query succeeds the trace already holds the query call and the log line
ahead of the Configuration error; when the query fails, its persistence
error is returned to the caller instead of the Configuration error. -/
theorem sync_roles_permitted_query_before_validation (σ : Type) (env : Env σ)
    (sid ty : String) (s : σ) (hteam : ty ≠ groupSyncableTypeTeam)
    (hchan : ty ≠ groupSyncableTypeChannel) :
    (∀ P s1, env.permittedSyncableAdmins sid ty s = (Except.ok P, s1) →
       syncSyncableRoles env sid ty s =
         (some unsupportedSyncableTypeError, s1,
          [Event.callPermittedSyncableAdmins sid ty,
           Event.logInfo ("Permitted admins for " ++ ty)
             [(String.toLower (ty ++ "_id"), sid),
              ("permitted_admins", String.intercalate "," P)]]))
  ∧ (∀ e s1, env.permittedSyncableAdmins sid ty s = (Except.error e, s1) →
       syncSyncableRoles env sid ty s =
         (some e, s1, [Event.callPermittedSyncableAdmins sid ty])) := by
  unfold syncSyncableRoles
  rcases hq : env.permittedSyncableAdmins sid ty s with ⟨res, s1⟩
  cases res with
  | error e =>
    refine ⟨fun P s2 h => by simp at h, fun e2 s2 h => ?_⟩
    injection h with h1 h2
    injection h1 with h3
    subst h2; subst h3
    rfl
  | ok P =>
    refine ⟨fun P2 s2 h => ?_, fun e2 s2 h => by simp at h⟩
    injection h with h1 h2
    injection h1 with h3
    subst h2; subst h3
    simp only [if_neg hteam, if_neg hchan]

/-- Witness for C10: a failing permitted-admins query surfaces its own
error although the syncable type is unsupported. -/
theorem sync_roles_permitted_query_before_validation_witness :
    syncSyncableRoles envPermittedFails "s1" "Bogus" () =
      (some persistenceError, (), [Event.callPermittedSyncableAdmins "s1" "Bogus"]) :=
  (sync_roles_permitted_query_before_validation Unit envPermittedFails "s1" "Bogus" ()
      (by decide) (by decide)).2 persistenceError () rfl

/-- C2: when `AddChannelMember` fails with the tolerated "user has already
left the owning team" conflict, the iteration logs it at informational
level and ends without error, so the pass is not aborted on its account;
any other `AddChannelMember` failure ends the iteration with that error;
and an iteration ending without error makes the loop continue with the
remaining pairs. -/
theorem channel_add_tolerates_left_team_conflict :
    (∀ (σ : Type) (env : Env σ) (p : UserChannelIDPair) (channel : Channel)
       (s : σ) (tr : List Event) (e : AppError) (s1 : σ),
       env.addChannelMember p.userID channel "" "" s = (Except.error e, s1) →
       e.id = channelAddDeletedId →
       addChannelStep env p channel s tr =
         (none, s1, tr ++
           [Event.callAddChannelMember p.userID channel.id,
            Event.logInfo "Not adding user to channel because they have already left the team"
              [("user_id", p.userID), ("channel_id", p.channelID)],
            Event.logInfo "added channelmember"
              [("user_id", p.userID), ("channel_id", p.channelID)]]))
  ∧ (∀ (σ : Type) (env : Env σ) (p : UserChannelIDPair) (channel : Channel)
       (s : σ) (tr : List Event) (e : AppError) (s1 : σ),
       env.addChannelMember p.userID channel "" "" s = (Except.error e, s1) →
       e.id ≠ channelAddDeletedId →
       addChannelStep env p channel s tr =
         (some e, s1, tr ++ [Event.callAddChannelMember p.userID channel.id]))
  ∧ (∀ (σ : Type) (env : Env σ) (p : UserChannelIDPair)
       (rest : List UserChannelIDPair) (s s1 : σ) (tr : List Event),
       processChannelAdd env p s = (none, s1, tr) →
       processChannelAdds env (p :: rest) s =
         ((processChannelAdds env rest s1).1,
          (processChannelAdds env rest s1).2.1,
          tr ++ (processChannelAdds env rest s1).2.2)) := by
  refine ⟨?_, ?_, ?_⟩
  · intro σ env p channel s tr e s1 h h2
    simp only [addChannelStep, h, if_pos h2]
  · intro σ env p channel s tr e s1 h h2
    simp only [addChannelStep, h, if_neg h2]
  · intro σ env p rest s s1 tr h
    simp only [processChannelAdds, h]

/-- Witness for C2: a concrete pair hitting the tolerated conflict yields
no error, and the loop then processes the remaining pair. -/
theorem channel_add_tolerates_left_team_conflict_witness :
    addChannelStep envChanConflict ⟨"c1", "u1"⟩ ⟨"c1", "t1"⟩ () [] =
      (none, (),
        [Event.callAddChannelMember "u1" "c1",
         Event.logInfo "Not adding user to channel because they have already left the team"
           [("user_id", "u1"), ("channel_id", "c1")],
         Event.logInfo "added channelmember" [("user_id", "u1"), ("channel_id", "c1")]]) ∧
    addChannelStep envChanFatal ⟨"c1", "u1"⟩ ⟨"c1", "t1"⟩ () [] =
      (some persistenceError, (), [Event.callAddChannelMember "u1" "c1"]) ∧
    processChannelAdds envChanConflict [⟨"c1", "u1"⟩, ⟨"c2", "u2"⟩] () =
      ((processChannelAdds envChanConflict [⟨"c2", "u2"⟩] ()).1,
       (processChannelAdds envChanConflict [⟨"c2", "u2"⟩] ()).2.1,
       (processChannelAdd envChanConflict ⟨"c1", "u1"⟩ ()).2.2 ++
         (processChannelAdds envChanConflict [⟨"c2", "u2"⟩] ()).2.2) :=
  ⟨channel_add_tolerates_left_team_conflict.1 Unit envChanConflict ⟨"c1", "u1"⟩
      ⟨"c1", "t1"⟩ () [] deletedConflictError () rfl rfl,
   channel_add_tolerates_left_team_conflict.2.1 Unit envChanFatal ⟨"c1", "u1"⟩
      ⟨"c1", "t1"⟩ () [] persistenceError () rfl (by decide),
   channel_add_tolerates_left_team_conflict.2.2 Unit envChanConflict ⟨"c1", "u1"⟩
      [⟨"c2", "u2"⟩] () () ((processChannelAdd envChanConflict ⟨"c1", "u1"⟩ ()).2.2)
      (by decide)⟩

/-- In every branch, the channel-add step first issues the
`AddChannelMember` command after the trace accumulated so far. -/
theorem addChannelStep_trace_shape (σ : Type) (env : Env σ) (p : UserChannelIDPair)
    (channel : Channel) (s : σ) (tr : List Event) :
    ∃ tl, (addChannelStep env p channel s tr).2.2 =
      tr ++ Event.callAddChannelMember p.userID channel.id :: tl := by
  unfold addChannelStep
  rcases h : env.addChannelMember p.userID channel "" "" s with ⟨res, s1⟩
  cases res with
  | error e =>
    dsimp only
    by_cases he : e.id = channelAddDeletedId
    · rw [if_pos he]
      exact ⟨_, rfl⟩
    · rw [if_neg he]
      exact ⟨_, rfl⟩
  | ok cm =>
    dsimp only
    exact ⟨_, rfl⟩

/-- C3: in a channel-loop iteration whose channel resolves, a
missing-membership result from `GetTeamMember` is tolerated — the
iteration goes on to issue `AddTeamMember`, and the `AddChannelMember`
command is only issued after it; when the adds succeed the iteration ends
without error; any `GetTeamMember` failure other than missing membership
ends the iteration with that error. -/
theorem team_membership_prerequisite_ordering (σ : Type) (env : Env σ)
    (p : UserChannelIDPair) (s : σ) (channel : Channel) (s1 : σ)
    (hch : env.getChannel p.channelID s = (Except.ok channel, s1)) :
    (∀ e s2 tm s3, env.getTeamMember channel.teamId p.userID s1 = (Except.error e, s2) →
       e.id = missingTeamMemberId →
       env.addTeamMember channel.teamId p.userID s2 = (Except.ok tm, s3) →
       ∃ tl, (processChannelAdd env p s).2.2 =
         [Event.callGetChannel p.channelID,
          Event.callGetTeamMember channel.teamId p.userID,
          Event.callAddTeamMember channel.teamId p.userID,
          Event.logInfo "added teammember"
            [("user_id", p.userID), ("team_id", channel.teamId)],
          Event.callAddChannelMember p.userID channel.id] ++ tl)
  ∧ (∀ e s2 tm s3 cm s4, env.getTeamMember channel.teamId p.userID s1 = (Except.error e, s2) →
       e.id = missingTeamMemberId →
       env.addTeamMember channel.teamId p.userID s2 = (Except.ok tm, s3) →
       env.addChannelMember p.userID channel "" "" s3 = (Except.ok cm, s4) →
       processChannelAdd env p s =
         (none, s4,
          [Event.callGetChannel p.channelID,
           Event.callGetTeamMember channel.teamId p.userID,
           Event.callAddTeamMember channel.teamId p.userID,
           Event.logInfo "added teammember"
             [("user_id", p.userID), ("team_id", channel.teamId)],
           Event.callAddChannelMember p.userID channel.id,
           Event.logInfo "added channelmember"
             [("user_id", p.userID), ("channel_id", p.channelID)]]))
  ∧ (∀ e s2, env.getTeamMember channel.teamId p.userID s1 = (Except.error e, s2) →
       e.id ≠ missingTeamMemberId →
       processChannelAdd env p s =
         (some e, s2, [Event.callGetChannel p.channelID,
                       Event.callGetTeamMember channel.teamId p.userID])) := by
  refine ⟨?_, ?_, ?_⟩
  · intro e s2 tm s3 hgm hid hat
    unfold processChannelAdd
    rw [hch]; dsimp only
    rw [hgm]; dsimp only
    rw [if_pos hid, hat]; dsimp only
    obtain ⟨tl, htl⟩ := addChannelStep_trace_shape σ env p channel s3
      ([Event.callGetChannel p.channelID,
        Event.callGetTeamMember channel.teamId p.userID] ++
       [Event.callAddTeamMember channel.teamId p.userID,
        Event.logInfo "added teammember"
          [("user_id", p.userID), ("team_id", channel.teamId)]])
    exact ⟨tl, htl⟩
  · intro e s2 tm s3 cm s4 hgm hid hat hac
    unfold processChannelAdd addChannelStep
    rw [hch]; dsimp only
    rw [hgm]; dsimp only
    rw [if_pos hid, hat]; dsimp only
    rw [hac]; rfl
  · intro e s2 hgm hid
    unfold processChannelAdd
    rw [hch]; dsimp only
    rw [hgm]; dsimp only
    rw [if_neg hid]

/-- A concrete oracle for witnesses: one channel pair whose user is not
yet on the owning team. -/
def oracleW : Oracle :=
  { tma := [⟨"t1", "u1"⟩], cma := [⟨"c1", "u1"⟩], cmr := [⟨"c1", "u3"⟩],
    tmr := [⟨"t1", "u3"⟩], chanTeam := fun _ => "t1", padm := ["u1"],
    failTeam := [] }

/-- The empty membership database. -/
def dbEmpty : DB :=
  { teamMembers := [], channelMembers := [], teamAdmins := [], channelAdmins := [] }

/-- Witness for C3: a user without team membership is first added to the
team, then to the channel, and the iteration ends without error. -/
theorem team_membership_prerequisite_ordering_witness :
    processChannelAdd (specEnv oracleW) ⟨"c1", "u1"⟩ dbEmpty =
      (none,
       { teamMembers := [("t1", "u1")], channelMembers := [("c1", "u1")],
         teamAdmins := [], channelAdmins := [] },
       [Event.callGetChannel "c1",
        Event.callGetTeamMember "t1" "u1",
        Event.callAddTeamMember "t1" "u1",
        Event.logInfo "added teammember" [("user_id", "u1"), ("team_id", "t1")],
        Event.callAddChannelMember "u1" "c1",
        Event.logInfo "added channelmember" [("user_id", "u1"), ("channel_id", "c1")]]) :=
  (team_membership_prerequisite_ordering DB (specEnv oracleW) ⟨"c1", "u1"⟩ dbEmpty
      ⟨"c1", "t1"⟩ dbEmpty rfl).2.1
    ⟨"SqlTeamStore.GetMember", missingTeamMemberId, 404⟩ dbEmpty ⟨"t1", "u1"⟩
    { teamMembers := [("t1", "u1")], channelMembers := [], teamAdmins := [],
      channelAdmins := [] }
    ⟨"c1", "u1"⟩
    { teamMembers := [("t1", "u1")], channelMembers := [("c1", "u1")],
      teamAdmins := [], channelAdmins := [] }
    rfl rfl rfl rfl

/-- C9 (code bug): at a pair whose `AddChannelMember` call fails with the
tolerated "already left the owning team" conflict, the code still emits
the informational "added channelmember" log entry — right after logging
that it is *not* adding the user — so the entry is not emitted only on
success as the spec states. -/
theorem added_channelmember_log_despite_conflict :
    (envChanConflict.addChannelMember "u1" ⟨"c1", "t1"⟩ "" "" ()).1 =
      Except.error deletedConflictError ∧
    processChannelAdd envChanConflict ⟨"c1", "u1"⟩ () =
      (none, (),
       [Event.callGetChannel "c1",
        Event.callGetTeamMember "t1" "u1",
        Event.callAddChannelMember "u1" "c1",
        Event.logInfo "Not adding user to channel because they have already left the team"
          [("user_id", "u1"), ("channel_id", "c1")],
        Event.logInfo "added channelmember" [("user_id", "u1"), ("channel_id", "c1")]]) :=
  ⟨rfl, by decide⟩

/-- Inserting a pair keeps all existing elements. -/
theorem insertPair_subset (p : String × String) (l : List (String × String)) :
    l ⊆ insertPair p l := by
  intro x hx
  unfold insertPair
  split
  · exact hx
  · exact List.mem_cons_of_mem _ hx

/-- The inserted pair is present afterwards. -/
theorem mem_insertPair_self (p : String × String) (l : List (String × String)) :
    p ∈ insertPair p l := by
  unfold insertPair
  split
  · assumption
  · exact List.mem_cons_self _ _

/-- Inserting a pair already present changes nothing. -/
theorem insertPair_of_mem (p : String × String) (l : List (String × String))
    (h : p ∈ l) : insertPair p l = l := by
  unfold insertPair
  rw [if_pos h]

/-- Under the modelled persistence boundary, the team-addition loop never
loses a team membership. -/
theorem processTeamAdds_teamMembers_mono (o : Oracle) :
    ∀ (l : List UserTeamIDPair) (db : DB),
      db.teamMembers ⊆ (processTeamAdds (specEnv o) l db).2.1.teamMembers := by
  intro l
  induction l with
  | nil => exact fun db x hx => hx
  | cons p rest ih =>
    intro db
    by_cases hf : (p.teamID, p.userID) ∈ o.failTeam
    · simp only [processTeamAdds, specEnv, if_pos hf]
      exact fun x hx => hx
    · simp only [processTeamAdds, specEnv, if_neg hf]
      exact fun x hx => ih _ (insertPair_subset _ _ hx)

/-- C5: a failing `AddTeamMember` command aborts the team-addition loop at
once — the loop returns that error unchanged and issues no event for any
subsequent pair; `CreateDefaultMemberships` surfaces the loop's error
unchanged to the caller; and, under the modelled persistence boundary, the
additions performed before the failure are still present in the final
state (no rollback). -/
theorem team_add_failure_aborts :
    (∀ (σ : Type) (env : Env σ) (p : UserTeamIDPair) (rest : List UserTeamIDPair)
       (s : σ) (e : AppError) (s1 : σ),
       env.addTeamMember p.teamID p.userID s = (Except.error e, s1) →
       processTeamAdds env (p :: rest) s =
         (some e, s1, [Event.callAddTeamMember p.teamID p.userID]))
  ∧ (∀ (σ : Type) (env : Env σ) (since : Int) (s : σ) (l : List UserTeamIDPair)
       (s1 : σ) (e : AppError) (s2 : σ) (tr : List Event),
       env.teamMembersToAdd since s = (Except.ok l, s1) →
       processTeamAdds env l s1 = (some e, s2, tr) →
       createDefaultMemberships env since s =
         (some e, s2, Event.callTeamMembersToAdd since :: tr))
  ∧ (∀ (o : Oracle) (l1 : List UserTeamIDPair) (p : UserTeamIDPair)
       (rest : List UserTeamIDPair) (db : DB),
       (∀ q ∈ l1, (q.teamID, q.userID) ∉ o.failTeam) →
       (p.teamID, p.userID) ∈ o.failTeam →
       (processTeamAdds (specEnv o) (l1 ++ p :: rest) db).1 = some persistenceError ∧
       ∀ q ∈ l1, (q.teamID, q.userID) ∈
         (processTeamAdds (specEnv o) (l1 ++ p :: rest) db).2.1.teamMembers) := by
  refine ⟨?_, ?_, ?_⟩
  · intro σ env p rest s e s1 h
    simp only [processTeamAdds, h]
  · intro σ env since s l s1 e s2 tr h1 h2
    unfold createDefaultMemberships
    rw [h1]; dsimp only
    rw [h2]
  · intro o l1 p rest db hl1 hp
    induction l1 generalizing db with
    | nil =>
      simp only [List.nil_append, processTeamAdds, specEnv, if_pos hp]
      exact ⟨trivial, by simp⟩
    | cons q l1 ih =>
      have hq : (q.teamID, q.userID) ∉ o.failTeam := hl1 q (List.mem_cons_self _ _)
      simp only [List.cons_append, processTeamAdds, specEnv, if_neg hq]
      obtain ⟨ihe, ihm⟩ := ih
        { db with teamMembers := insertPair (q.teamID, q.userID) db.teamMembers }
        (fun r hr => hl1 r (List.mem_cons_of_mem _ hr))
      refine ⟨ihe, ?_⟩
      intro r hr
      rcases List.mem_cons.mp hr with h | h
      · subst h
        exact processTeamAdds_teamMembers_mono o _ _
          (mem_insertPair_self _ _)
      · exact ihm r h

/-- Concrete oracle where the add of the second team pair fails. -/
def oracleFail : Oracle :=
  { tma := [⟨"t1", "u1"⟩, ⟨"t2", "u2"⟩], cma := [], cmr := [], tmr := [],
    chanTeam := fun _ => "t1", padm := [], failTeam := [("t2", "u2")] }

/-- Witness for C5: a concrete failing add aborts with its error, no
further event is issued, and the addition made before the failure is
kept. -/
theorem team_add_failure_aborts_witness :
    processTeamAdds envTeamAddFails [⟨"t1", "u1"⟩, ⟨"t2", "u2"⟩] () =
      (some persistenceError, (), [Event.callAddTeamMember "t1" "u1"]) ∧
    (processTeamAdds (specEnv oracleFail) [⟨"t1", "u1"⟩, ⟨"t2", "u2"⟩] dbEmpty).1 =
      some persistenceError ∧
    ("t1", "u1") ∈
      (processTeamAdds (specEnv oracleFail) [⟨"t1", "u1"⟩, ⟨"t2", "u2"⟩] dbEmpty).2.1.teamMembers :=
  ⟨team_add_failure_aborts.1 Unit envTeamAddFails ⟨"t1", "u1"⟩ [⟨"t2", "u2"⟩] ()
      persistenceError () rfl,
   (team_add_failure_aborts.2.2 oracleFail [⟨"t1", "u1"⟩] ⟨"t2", "u2"⟩ [] dbEmpty
      (by decide) (by decide)).1,
   (team_add_failure_aborts.2.2 oracleFail [⟨"t1", "u1"⟩] ⟨"t2", "u2"⟩ [] dbEmpty
      (by decide) (by decide)).2 ⟨"t1", "u1"⟩ (by decide)⟩

/-- The channel-removal loop never issues a team-removal command. -/
theorem processChannelRemovals_no_team_removal (σ : Type) (env : Env σ) :
    ∀ (l : List ChannelMember) (s : σ),
      ∀ e ∈ (processChannelRemovals env l s).2.2, isTeamRemovalEvent e = false := by
  intro l
  induction l with
  | nil =>
    intro s e he
    simp [processChannelRemovals] at he
  | cons m rest ih =>
    intro s
    unfold processChannelRemovals
    rcases h1 : env.getChannel m.channelId s with ⟨res, s1⟩
    cases res with
    | error er =>
      dsimp only
      intro e he
      simp only [List.mem_singleton] at he
      subst he; rfl
    | ok channel =>
      dsimp only
      rcases h2 : env.removeUserFromChannel m.userId "" channel s1 with ⟨rres, s2⟩
      cases rres with
      | some er =>
        intro e he
        simp only [List.mem_cons, List.not_mem_nil, or_false] at he
        rcases he with h | h <;> subst h <;> rfl
      | none =>
        dsimp only
        intro e he
        simp only [List.mem_cons] at he
        rcases he with h | h | h | h
        · subst h; rfl
        · subst h; rfl
        · subst h; rfl
        · exact ih s2 e h

/-- The team-removal loop never issues a channel-removal command. -/
theorem processTeamRemovals_no_channel_removal (σ : Type) (env : Env σ) :
    ∀ (l : List TeamMember) (s : σ),
      ∀ e ∈ (processTeamRemovals env l s).2.2, isChannelRemovalEvent e = false := by
  intro l
  induction l with
  | nil =>
    intro s e he
    simp [processTeamRemovals] at he
  | cons m rest ih =>
    intro s
    unfold processTeamRemovals
    rcases h1 : env.removeUserFromTeam m.teamId m.userId "" s with ⟨rres, s1⟩
    cases rres with
    | some er =>
      intro e he
      simp only [List.mem_singleton] at he
      subst he; rfl
    | none =>
      dsimp only
      intro e he
      simp only [List.mem_cons] at he
      rcases he with h | h | h
      · subst h; rfl
      · subst h; rfl
      · exact ih s1 e h

/-- Under the modelled persistence boundary the channel-removal loop
succeeds, only shrinks the channel-membership set, and leaves none of the
listed pairs as members. -/
theorem processChannelRemovals_specEnv (o : Oracle) :
    ∀ (l : List ChannelMember) (db : DB),
      (processChannelRemovals (specEnv o) l db).1 = none ∧
      (processChannelRemovals (specEnv o) l db).2.1.channelMembers ⊆ db.channelMembers ∧
      ∀ m ∈ l, (m.channelId, m.userId) ∉
        (processChannelRemovals (specEnv o) l db).2.1.channelMembers := by
  intro l
  induction l with
  | nil =>
    intro db
    exact ⟨rfl, fun x hx => hx, by simp⟩
  | cons m rest ih =>
    intro db
    simp only [processChannelRemovals, specEnv]
    obtain ⟨ihe, ihsub, ihmem⟩ := ih
      { db with channelMembers :=
          db.channelMembers.filter (fun x => !decide (x = (m.channelId, m.userId))) }
    refine ⟨ihe, ?_, ?_⟩
    · exact fun x hx => List.filter_subset' _ (ihsub hx)
    · intro m2 hm2
      rcases List.mem_cons.mp hm2 with h | h
      · subst h
        intro hmem2
        have h2 := (List.mem_filter.mp (ihsub hmem2)).2
        simp at h2
      · exact ihmem m2 h

/-- Under the modelled persistence boundary the team-removal loop
succeeds and leaves channel memberships untouched. -/
theorem processTeamRemovals_specEnv (o : Oracle) :
    ∀ (l : List TeamMember) (db : DB),
      (processTeamRemovals (specEnv o) l db).1 = none ∧
      (processTeamRemovals (specEnv o) l db).2.1.channelMembers = db.channelMembers := by
  intro l
  induction l with
  | nil => exact fun db => ⟨rfl, rfl⟩
  | cons m rest ih =>
    intro db
    simp only [processTeamRemovals, specEnv]
    obtain ⟨ihe, ihc⟩ := ih
      { db with teamMembers :=
          db.teamMembers.filter (fun x => !decide (x = (m.teamId, m.userId))) }
    exact ⟨ihe, ihc⟩

/-- C4: in every run of the Removal Reconciler, the trace splits into a
first part holding no team-removal command followed by a part holding no
channel-removal command (all channel removals are issued strictly before
any team removal); and, under the modelled persistence boundary, a pass
succeeds and afterwards none of the pairs listed by
`ChannelMembersToRemove` is still a member of its channel. -/
theorem removals_ordered_and_complete :
    (∀ (σ : Type) (env : Env σ) (s : σ),
       ∃ l1 l2, (deleteGroupConstrainedMemberships env s).2.2 = l1 ++ l2 ∧
         (∀ e ∈ l1, isTeamRemovalEvent e = false) ∧
         (∀ e ∈ l2, isChannelRemovalEvent e = false))
  ∧ (∀ (o : Oracle) (db : DB),
       (deleteGroupConstrainedMemberships (specEnv o) db).1 = none ∧
       ∀ m ∈ o.cmr, (m.channelId, m.userId) ∉
         (deleteGroupConstrainedMemberships (specEnv o) db).2.1.channelMembers) := by
  constructor
  · intro σ env s
    unfold deleteGroupConstrainedMemberships
    rcases h1 : env.channelMembersToRemove s with ⟨res, s1⟩
    cases res with
    | error e =>
      dsimp only
      refine ⟨[Event.callChannelMembersToRemove], [], rfl, ?_, by simp⟩
      intro ev hev
      simp only [List.mem_singleton] at hev
      subst hev; rfl
    | ok lcm =>
      dsimp only
      rcases h2 : processChannelRemovals env lcm s1 with ⟨err, s2, trC⟩
      have htrC : ∀ e ∈ trC, isTeamRemovalEvent e = false := by
        have h := processChannelRemovals_no_team_removal σ env lcm s1
        rw [h2] at h
        exact h
      cases err with
      | some e =>
        dsimp only
        refine ⟨Event.callChannelMembersToRemove :: trC, [], by simp, ?_, by simp⟩
        intro ev hev
        rcases List.mem_cons.mp hev with h | h
        · subst h; rfl
        · exact htrC ev h
      | none =>
        dsimp only
        rcases h3 : env.teamMembersToRemove s2 with ⟨res3, s3⟩
        cases res3 with
        | error e =>
          dsimp only
          refine ⟨Event.callChannelMembersToRemove :: trC ++ [Event.callTeamMembersToRemove],
            [], by simp, ?_, by simp⟩
          intro ev hev
          simp only [List.mem_cons, List.mem_append, List.mem_singleton] at hev
          rcases hev with (h | h) | h | h
          · subst h; rfl
          · exact htrC ev h
          · subst h; rfl
          · simp at h
        | ok ltm =>
          dsimp only
          refine ⟨Event.callChannelMembersToRemove :: trC ++ [Event.callTeamMembersToRemove],
            (processTeamRemovals env ltm s3).2.2, by simp, ?_, ?_⟩
          · intro ev hev
            simp only [List.mem_cons, List.mem_append, List.mem_singleton] at hev
            rcases hev with (h | h) | h | h
            · subst h; rfl
            · exact htrC ev h
            · subst h; rfl
            · simp at h
          · exact processTeamRemovals_no_channel_removal σ env ltm s3
  · intro o db
    unfold deleteGroupConstrainedMemberships
    rw [show (specEnv o).channelMembersToRemove db = (Except.ok o.cmr, db) from rfl]
    dsimp only
    rcases h2 : processChannelRemovals (specEnv o) o.cmr db with ⟨err, db1, trC⟩
    obtain ⟨he, hsub, hmem⟩ := processChannelRemovals_specEnv o o.cmr db
    rw [h2] at he hmem
    dsimp only at he hmem
    subst he
    dsimp only
    rw [show (specEnv o).teamMembersToRemove db1 = (Except.ok o.tmr, db1) from rfl]
    dsimp only
    rcases h3 : processTeamRemovals (specEnv o) o.tmr db1 with ⟨err2, db2, trT⟩
    obtain ⟨he2, hc2⟩ := processTeamRemovals_specEnv o o.tmr db1
    rw [h3] at he2 hc2
    dsimp only at he2 hc2
    subst he2
    refine ⟨rfl, ?_⟩
    intro m hm
    dsimp only
    rw [hc2]
    exact hmem m hm

/-- Membership database used by the removal witness. -/
def dbRemoval : DB :=
  { teamMembers := [("t1", "u3")], channelMembers := [("c1", "u3")],
    teamAdmins := [], channelAdmins := [] }

/-- Witness for C4: after a concrete pass, the listed (channel, user) pair
is no longer a channel member. -/
theorem removals_ordered_and_complete_witness :
    ("c1", "u3") ∉
      (deleteGroupConstrainedMemberships (specEnv oracleW) dbRemoval).2.1.channelMembers :=
  (removals_ordered_and_complete.2 oracleW dbRemoval).2 ⟨"c1", "u3"⟩ (by decide)

/-- Applying the two modelled bulk role updates (admin := true on the
permitted list in equals mode, then admin := false in not-equals mode)
leaves a member's admin flag set exactly when the member's user is in the
permitted list. -/
theorem dbUpdateMembersRole_twice_iff (members admins : List (String × String))
    (sid : String) (P : List String) (u : String) (hmem : (sid, u) ∈ members) :
    ((sid, u) ∈ dbUpdateMembersRole members
        (dbUpdateMembersRole members admins sid P Equality.equals true)
        sid P Equality.notEquals false) ↔ u ∈ P := by
  unfold dbUpdateMembersRole matchesEquality
  by_cases h : u ∈ P
  · simp [List.mem_filter, List.mem_append, hmem, h]
  · simp [List.mem_filter, List.mem_append, hmem, h]

/-- C1: after a successful Role Synchronizer run under the modelled
persistence boundary, a membership of the syncable has admin flag true iff
its user is in the freshly computed permitted-admins set, for both the
Team and the Channel syncable type. -/
theorem sync_roles_admin_iff (o : Oracle) (db : DB) (sid : String) :
    ((syncSyncableRoles (specEnv o) sid groupSyncableTypeTeam db).1 = none ∧
     ∀ u, (sid, u) ∈ (syncSyncableRoles (specEnv o) sid groupSyncableTypeTeam db).2.1.teamMembers →
       ((sid, u) ∈ (syncSyncableRoles (specEnv o) sid groupSyncableTypeTeam db).2.1.teamAdmins ↔
        u ∈ o.padm))
  ∧ ((syncSyncableRoles (specEnv o) sid groupSyncableTypeChannel db).1 = none ∧
     ∀ u, (sid, u) ∈ (syncSyncableRoles (specEnv o) sid groupSyncableTypeChannel db).2.1.channelMembers →
       ((sid, u) ∈ (syncSyncableRoles (specEnv o) sid groupSyncableTypeChannel db).2.1.channelAdmins ↔
        u ∈ o.padm)) := by
  have hsT : (syncSyncableRoles (specEnv o) sid groupSyncableTypeTeam db).2.1 =
      { db with teamAdmins :=
          (dbUpdateMembersRole db.teamMembers
            (dbUpdateMembersRole db.teamMembers db.teamAdmins sid o.padm
              Equality.equals true)
            sid o.padm Equality.notEquals false) } := rfl
  have hsC : (syncSyncableRoles (specEnv o) sid groupSyncableTypeChannel db).2.1 =
      { db with channelAdmins :=
          (dbUpdateMembersRole db.channelMembers
            (dbUpdateMembersRole db.channelMembers db.channelAdmins sid o.padm
              Equality.equals true)
            sid o.padm Equality.notEquals false) } := rfl
  refine ⟨⟨rfl, ?_⟩, ⟨rfl, ?_⟩⟩
  · intro u hu
    rw [hsT] at hu ⊢
    exact dbUpdateMembersRole_twice_iff db.teamMembers db.teamAdmins sid o.padm u hu
  · intro u hu
    rw [hsC] at hu ⊢
    exact dbUpdateMembersRole_twice_iff db.channelMembers db.channelAdmins sid o.padm u hu

/-- Witness for C1 at a concrete database: the permitted member ends up
with admin true, the unpermitted member with admin false. -/
theorem sync_roles_admin_iff_witness :
    ((("t1", "u1") ∈ (syncSyncableRoles (specEnv oracleW) "t1" groupSyncableTypeTeam
        { teamMembers := [("t1", "u1"), ("t1", "u2")], channelMembers := [],
          teamAdmins := [("t1", "u2")], channelAdmins := [] }).2.1.teamAdmins) ↔
      "u1" ∈ oracleW.padm) ∧
    ((("t1", "u2") ∈ (syncSyncableRoles (specEnv oracleW) "t1" groupSyncableTypeTeam
        { teamMembers := [("t1", "u1"), ("t1", "u2")], channelMembers := [],
          teamAdmins := [("t1", "u2")], channelAdmins := [] }).2.1.teamAdmins) ↔
      "u2" ∈ oracleW.padm) :=
  ⟨(sync_roles_admin_iff oracleW
      { teamMembers := [("t1", "u1"), ("t1", "u2")], channelMembers := [],
        teamAdmins := [("t1", "u2")], channelAdmins := [] } "t1").1.2 "u1" (by decide),
   (sync_roles_admin_iff oracleW
      { teamMembers := [("t1", "u1"), ("t1", "u2")], channelMembers := [],
        teamAdmins := [("t1", "u2")], channelAdmins := [] } "t1").1.2 "u2" (by decide)⟩

/-- With no failing adds, the team-addition loop succeeds, leaves channel
memberships untouched, makes every listed pair a team member, and is a
no-op on a state where every listed pair is already a member. -/
theorem processTeamAdds_specEnv_ok (o : Oracle) (hf : o.failTeam = []) :
    ∀ (l : List UserTeamIDPair) (db : DB),
      (processTeamAdds (specEnv o) l db).1 = none ∧
      (processTeamAdds (specEnv o) l db).2.1.channelMembers = db.channelMembers ∧
      (∀ p ∈ l, (p.teamID, p.userID) ∈ (processTeamAdds (specEnv o) l db).2.1.teamMembers) ∧
      ((∀ p ∈ l, (p.teamID, p.userID) ∈ db.teamMembers) →
        (processTeamAdds (specEnv o) l db).2.1 = db) := by
  intro l
  induction l with
  | nil =>
    intro db
    exact ⟨rfl, rfl, by simp, fun _ => rfl⟩
  | cons p rest ih =>
    intro db
    have hnf : (p.teamID, p.userID) ∉ o.failTeam := by
      rw [hf]; exact List.not_mem_nil _
    simp only [processTeamAdds, specEnv, if_neg hnf]
    obtain ⟨ihe, ihc, ihm, ihid⟩ := ih
      { db with teamMembers := insertPair (p.teamID, p.userID) db.teamMembers }
    refine ⟨ihe, ihc, ?_, ?_⟩
    · intro q hq
      rcases List.mem_cons.mp hq with h | h
      · subst h
        exact processTeamAdds_teamMembers_mono o _ _ (mem_insertPair_self _ _)
      · exact ihm q h
    · intro hall
      have hdb : { db with teamMembers := insertPair (p.teamID, p.userID) db.teamMembers } = db := by
        rw [insertPair_of_mem _ _ (hall p (List.mem_cons_self _ _))]
      rw [hdb]
      exact (ih db).2.2.2 (fun q hq => hall q (List.mem_cons_of_mem _ hq))

/-- With no failing adds, one channel-loop iteration succeeds and its
whole effect on the state is inserting the team pair (owning team, user)
and the channel pair (channel, user). -/
theorem processChannelAdd_specEnv_ok (o : Oracle) (hf : o.failTeam = [])
    (p : UserChannelIDPair) (db : DB) :
    (processChannelAdd (specEnv o) p db).1 = none ∧
    (processChannelAdd (specEnv o) p db).2.1 =
      { db with
        teamMembers := insertPair (o.chanTeam p.channelID, p.userID) db.teamMembers,
        channelMembers := insertPair (p.channelID, p.userID) db.channelMembers } := by
  by_cases hm : (o.chanTeam p.channelID, p.userID) ∈ db.teamMembers
  · simp only [processChannelAdd, addChannelStep, specEnv, if_pos hm]
    refine ⟨trivial, ?_⟩
    rw [insertPair_of_mem _ _ hm]
  · simp only [processChannelAdd, addChannelStep, specEnv, if_neg hm, hf,
      List.not_mem_nil, if_false, if_true]
    exact ⟨trivial, trivial⟩

/-- With no failing adds, the channel-addition loop succeeds, only grows
the membership sets, makes every listed pair a channel member of its
channel and a team member of the owning team, and is a no-op on a state
where all of those memberships already exist. -/
theorem processChannelAdds_specEnv_ok (o : Oracle) (hf : o.failTeam = []) :
    ∀ (l : List UserChannelIDPair) (db : DB),
      (processChannelAdds (specEnv o) l db).1 = none ∧
      db.teamMembers ⊆ (processChannelAdds (specEnv o) l db).2.1.teamMembers ∧
      db.channelMembers ⊆ (processChannelAdds (specEnv o) l db).2.1.channelMembers ∧
      (∀ p ∈ l, (p.channelID, p.userID) ∈ (processChannelAdds (specEnv o) l db).2.1.channelMembers ∧
        (o.chanTeam p.channelID, p.userID) ∈ (processChannelAdds (specEnv o) l db).2.1.teamMembers) ∧
      ((∀ p ∈ l, (p.channelID, p.userID) ∈ db.channelMembers ∧
          (o.chanTeam p.channelID, p.userID) ∈ db.teamMembers) →
        (processChannelAdds (specEnv o) l db).2.1 = db) := by
  intro l
  induction l with
  | nil =>
    intro db
    exact ⟨rfl, fun x hx => hx, fun x hx => hx, by simp, fun _ => rfl⟩
  | cons p rest ih =>
    intro db
    obtain ⟨h1, h2⟩ := processChannelAdd_specEnv_ok o hf p db
    rcases hstep : processChannelAdd (specEnv o) p db with ⟨err, db1, tr⟩
    rw [hstep] at h1 h2
    dsimp only at h1 h2
    subst h1
    subst h2
    unfold processChannelAdds
    rw [hstep]
    dsimp only
    obtain ⟨ihe, ihtm, ihcm, ihmem, ihid⟩ := ih
      { db with
        teamMembers := insertPair (o.chanTeam p.channelID, p.userID) db.teamMembers,
        channelMembers := insertPair (p.channelID, p.userID) db.channelMembers }
    refine ⟨ihe, ?_, ?_, ?_, ?_⟩
    · exact fun x hx => ihtm (insertPair_subset _ _ hx)
    · exact fun x hx => ihcm (insertPair_subset _ _ hx)
    · intro q hq
      rcases List.mem_cons.mp hq with h | h
      · subst h
        exact ⟨ihcm (mem_insertPair_self _ _), ihtm (mem_insertPair_self _ _)⟩
      · exact ihmem q h
    · intro hall
      have hdb : { db with
          teamMembers := insertPair (o.chanTeam p.channelID, p.userID) db.teamMembers,
          channelMembers := insertPair (p.channelID, p.userID) db.channelMembers } = db := by
        rw [insertPair_of_mem _ _ (hall p (List.mem_cons_self _ _)).2,
            insertPair_of_mem _ _ (hall p (List.mem_cons_self _ _)).1]
      rw [hdb]
      exact (ih db).2.2.2.2 (fun q hq => hall q (List.mem_cons_of_mem _ hq))

/-- With no failing adds, `CreateDefaultMemberships` succeeds and its
final state is the channel-addition loop applied after the team-addition
loop. -/
theorem createDefaultMemberships_specEnv_ok (o : Oracle) (hf : o.failTeam = [])
    (since : Int) (db : DB) :
    (createDefaultMemberships (specEnv o) since db).1 = none ∧
    (createDefaultMemberships (specEnv o) since db).2.1 =
      (processChannelAdds (specEnv o) o.cma
        ((processTeamAdds (specEnv o) o.tma db).2.1)).2.1 := by
  unfold createDefaultMemberships
  rw [show (specEnv o).teamMembersToAdd since db = (Except.ok o.tma, db) from rfl]
  dsimp only
  have hta := processTeamAdds_specEnv_ok o hf o.tma db
  rcases h1 : processTeamAdds (specEnv o) o.tma db with ⟨e1, db1, tr1⟩
  rw [h1] at hta
  dsimp only at hta
  obtain ⟨he1, -, -, -⟩ := hta
  subst he1
  dsimp only
  rw [show (specEnv o).channelMembersToAdd since db1 = (Except.ok o.cma, db1) from rfl]
  dsimp only
  exact ⟨(processChannelAdds_specEnv_ok o hf o.cma db1).1, rfl⟩

/-- C8: under the modelled persistence boundary, running the Addition
Reconciler twice with the same cursor gives the same final membership
state as running it once — the second run changes nothing and returns no
error (and the first run returns no error as well). -/
theorem additions_idempotent (o : Oracle) (since : Int) (db : DB)
    (hf : o.failTeam = []) :
    (createDefaultMemberships (specEnv o) since db).1 = none ∧
    (createDefaultMemberships (specEnv o) since
      ((createDefaultMemberships (specEnv o) since db).2.1)).1 = none ∧
    (createDefaultMemberships (specEnv o) since
      ((createDefaultMemberships (specEnv o) since db).2.1)).2.1 =
      (createDefaultMemberships (specEnv o) since db).2.1 := by
  obtain ⟨h1e, h1s⟩ := createDefaultMemberships_specEnv_ok o hf since db
  obtain ⟨h2e, h2s⟩ := createDefaultMemberships_specEnv_ok o hf since
    ((createDefaultMemberships (specEnv o) since db).2.1)
  have htma : ∀ p ∈ o.tma, (p.teamID, p.userID) ∈
      ((createDefaultMemberships (specEnv o) since db).2.1).teamMembers := by
    intro p hp
    rw [h1s]
    exact (processChannelAdds_specEnv_ok o hf o.cma _).2.1
      ((processTeamAdds_specEnv_ok o hf o.tma db).2.2.1 p hp)
  have hcma : ∀ p ∈ o.cma, (p.channelID, p.userID) ∈
      ((createDefaultMemberships (specEnv o) since db).2.1).channelMembers ∧
      (o.chanTeam p.channelID, p.userID) ∈
      ((createDefaultMemberships (specEnv o) since db).2.1).teamMembers := by
    intro p hp
    rw [h1s]
    exact (processChannelAdds_specEnv_ok o hf o.cma _).2.2.2.1 p hp
  have hTA1 : (processTeamAdds (specEnv o) o.tma
      ((createDefaultMemberships (specEnv o) since db).2.1)).2.1 =
      (createDefaultMemberships (specEnv o) since db).2.1 :=
    (processTeamAdds_specEnv_ok o hf o.tma _).2.2.2 htma
  refine ⟨h1e, h2e, ?_⟩
  rw [h2s, hTA1]
  exact (processChannelAdds_specEnv_ok o hf o.cma _).2.2.2.2 hcma

/-- Witness for C8 at a concrete oracle and database. -/
theorem additions_idempotent_witness :
    (createDefaultMemberships (specEnv oracleW) 0
      ((createDefaultMemberships (specEnv oracleW) 0 dbEmpty).2.1)).2.1 =
      (createDefaultMemberships (specEnv oracleW) 0 dbEmpty).2.1 :=
  (additions_idempotent oracleW 0 dbEmpty rfl).2.2

end Syncables
